import Mathlib

/-!
Verification of the AI-finance-mentor backend (src/backend/backend/mentor.py)
against its natural-language specification.

The program is a personal-finance API over a relational store with two
tables, Users and Transactions.  We embed the store as explicit state
(`Store`: the two tables as lists in insertion order, plus the next
autoincrement identifier for each table) and each endpoint handler as a
function from the store and its request data to `Except HTTPException
(result × Store)`.  Read-only handlers return the store unchanged; mutating
handlers return the updated store.  Python `float` amounts are embedded as
rationals, and Python dicts (used for the category breakdown, which in
CPython preserves insertion order) as association lists.
-/

namespace FinMentor

/-- A row of the `users` table (class `User` in mentor.py). -/
structure User where
  id : Nat
  email : String
  name : String
  monthly_income : ℚ
  financial_goal : String
  mood : String
deriving DecidableEq

/-- A row of the `transactions` table (class `Transaction` in mentor.py). -/
structure Transaction where
  id : Nat
  user_id : Nat
  amount : ℚ
  category : String
  date : String
deriving DecidableEq

/-- Request body of Register User (pydantic schema `UserCreate`). -/
structure UserCreate where
  email : String
  name : String
  monthly_income : ℚ
  financial_goal : String
  mood : String
deriving DecidableEq

/-- Request body of Record Transaction (pydantic schema `TransactionCreate`). -/
structure TransactionCreate where
  user_id : Nat
  amount : ℚ
  category : String
  date : String
deriving DecidableEq

/-- The relational store: both tables in insertion (rowid) order, plus the
next autoincrement primary key of each table. -/
structure Store where
  users : List User
  transactions : List Transaction
  nextUserId : Nat
  nextTxId : Nat
deriving DecidableEq

/-- An error response (`HTTPException(status_code=..., detail=...)`). -/
structure HTTPException where
  status_code : Nat
  detail : String
deriving DecidableEq

/-- `db.query(User).filter(User.email == e).first()`. -/
def findUserByEmail (s : Store) (e : String) : Option User :=
  s.users.find? (fun u => u.email == e)

/-- `db.query(User).filter(User.id == uid).first()`. -/
def findUserById (s : Store) (uid : Nat) : Option User :=
  s.users.find? (fun u => u.id == uid)

/-- `db.query(Transaction).filter(Transaction.user_id == uid).all()`:
all transactions of the user, in insertion order. -/
def txsFor (s : Store) (user_id : Nat) : List Transaction :=
  s.transactions.filter (fun t => t.user_id == user_id)

/-- Endpoint `POST /users/` (`create_user` in mentor.py): reject if some
user already has the email, otherwise insert a new row with a fresh id. -/
def create_user (s : Store) (user : UserCreate) :
    Except HTTPException (User × Store) :=
  match findUserByEmail s user.email with
  | some _ => .error ⟨400, "Email already registered"⟩
  | none =>
    let db_user : User :=
      ⟨s.nextUserId, user.email, user.name, user.monthly_income,
        user.financial_goal, user.mood⟩
    .ok (db_user,
      { s with users := s.users ++ [db_user], nextUserId := s.nextUserId + 1 })

/-- Endpoint `GET /users/{user_id}` (`get_user` in mentor.py). -/
def get_user (s : Store) (user_id : Nat) :
    Except HTTPException (User × Store) :=
  match findUserById s user_id with
  | none => .error ⟨404, "User not found"⟩
  | some u => .ok (u, s)

/-- Endpoint `POST /transactions/` (`add_transaction` in mentor.py): 404 if
the referenced user does not exist, otherwise insert a new row with a
fresh id. -/
def add_transaction (s : Store) (tx : TransactionCreate) :
    Except HTTPException (Transaction × Store) :=
  match findUserById s tx.user_id with
  | none => .error ⟨404, "User not found"⟩
  | some _ =>
    let db_tx : Transaction :=
      ⟨s.nextTxId, tx.user_id, tx.amount, tx.category, tx.date⟩
    .ok (db_tx,
      { s with transactions := s.transactions ++ [db_tx],
               nextTxId := s.nextTxId + 1 })

/-- Endpoint `GET /users/{user_id}/transactions` (`get_transactions` in
mentor.py): no existence check on the user, never an error. -/
def get_transactions (s : Store) (user_id : Nat) :
    Except HTTPException (List Transaction × Store) :=
  .ok (txsFor s user_id, s)

/-- One step of `categories[t.category] = categories.get(t.category, 0) + t.amount`
on an insertion-ordered dict: update the existing key in place, or append a
new key at the end. -/
def addCategory (acc : List (String × ℚ)) (c : String) (a : ℚ) :
    List (String × ℚ) :=
  if acc.any (fun p => p.1 == c) then
    acc.map (fun p => if p.1 == c then (p.1, p.2 + a) else p)
  else
    acc ++ [(c, a)]

/-- The `categories` dict built by the loop in `user_summary`. -/
def category_breakdown (txs : List Transaction) : List (String × ℚ) :=
  txs.foldl (fun acc t => addCategory acc t.category t.amount) []

/-- Response shape of `GET /users/{user_id}/summary`. -/
structure SummaryOut where
  user : String
  financial_goal : String
  total_spent : ℚ
  category_breakdown : List (String × ℚ)
deriving DecidableEq

/-- Endpoint `GET /users/{user_id}/summary` (`user_summary` in mentor.py). -/
def user_summary (s : Store) (user_id : Nat) :
    Except HTTPException (SummaryOut × Store) :=
  match findUserById s user_id with
  | none => .error ⟨404, "User not found"⟩
  | some db_user =>
    let transactions := txsFor s user_id
    let total_spent := (transactions.map (fun t => t.amount)).sum
    .ok (⟨db_user.name, db_user.financial_goal, total_spent,
          category_breakdown transactions⟩, s)

/-- `user.mood = mood` on the first row matched by
`db.query(User).filter(User.id == user_id).first()`. -/
def setMoodFirst : List User → Nat → String → List User
  | [], _, _ => []
  | u :: rest, uid, m =>
    if u.id == uid then { u with mood := m } :: rest
    else u :: setMoodFirst rest uid m

/-- Endpoint `POST /users/{user_id}/mood` (`update_mood` in mentor.py). -/
def update_mood (s : Store) (user_id : Nat) (mood : String) :
    Except HTTPException ((Nat × String) × Store) :=
  match findUserById s user_id with
  | none => .error ⟨404, "User not found"⟩
  | some _ =>
    .ok ((user_id, mood), { s with users := setMoodFirst s.users user_id mood })

/-- Round-half-even of a rational to an integer, as Python `format` rounds. -/
def rhe (q : ℚ) : Int :=
  let f : Int := ⌊q⌋
  if q - f < 1/2 then f
  else if q - f > 1/2 then f + 1
  else if f % 2 = 0 then f else f + 1

/-- Two decimal digits, left-padded with a zero. -/
def pad2 (n : Nat) : String :=
  if n < 10 then "0" ++ toString n else toString n

/-- Python `f-string` formatting with `:.2f`: two decimal places. -/
def fmt2 (q : ℚ) : String :=
  let n : Int := rhe (100 * q)
  let sign : String := if q < 0 then "-" else ""
  sign ++ toString (n.natAbs / 100) ++ "." ++ pad2 (n.natAbs % 100)

/-- The unconditional advice text in `mentor_advice`. -/
def baseAdvice : String :=
  "Keep up the good work! Consider investing extra funds if you\x27re under budget."

/-- The sentence appended when `user.mood == "stressed"`. -/
def stressAdvice : String :=
  " Take a deep breath before making new purchases."

/-- Endpoint `GET /mentor_advice/{user_id}` (`mentor_advice` in mentor.py). -/
def mentor_advice (s : Store) (user_id : Nat) :
    Except HTTPException ((String × String) × Store) :=
  match findUserById s user_id with
  | none => .error ⟨404, "User not found"⟩
  | some user =>
    let total := ((txsFor s user_id).map (fun t => t.amount)).sum
    let summary := user.name ++ " has spent " ++ fmt2 total ++ " this month."
    let response :=
      if user.mood == "stressed" then baseAdvice ++ stressAdvice else baseAdvice
    .ok ((summary, response), s)

/-- A request to any of the seven endpoints. -/
inductive Op where
  | register (u : UserCreate)
  | fetchUser (user_id : Nat)
  | recordTx (tx : TransactionCreate)
  | listTx (user_id : Nat)
  | summary (user_id : Nat)
  | setMood (user_id : Nat) (mood : String)
  | advice (user_id : Nat)
deriving DecidableEq

/-- The store an endpoint result leaves behind: unchanged on an error. -/
def stateOf {α : Type} (s : Store) : Except HTTPException (α × Store) → Store
  | .error _ => s
  | .ok (_, s2) => s2

/-- The store after serving one request. -/
def applyOp (s : Store) : Op → Store
  | .register u => stateOf s (create_user s u)
  | .fetchUser uid => stateOf s (get_user s uid)
  | .recordTx tx => stateOf s (add_transaction s tx)
  | .listTx uid => stateOf s (get_transactions s uid)
  | .summary uid => stateOf s (user_summary s uid)
  | .setMood uid m => stateOf s (update_mood s uid m)
  | .advice uid => stateOf s (mentor_advice s uid)

/-- The store after serving a sequence of requests. -/
def applyAll (s : Store) (ops : List Op) : Store :=
  ops.foldl applyOp s

/-- Store well-formedness, established by the empty store and preserved by
every request: row ids are below the autoincrement counters, and every
transaction references an existing user. -/
def WF (s : Store) : Prop :=
  (∀ u ∈ s.users, u.id < s.nextUserId) ∧
  (∀ t ∈ s.transactions, t.id < s.nextTxId ∧ ∃ u ∈ s.users, u.id = t.user_id)

instance (s : Store) : Decidable (WF s) := by
  unfold WF; infer_instance

/-! ### Concrete fixtures for witnesses -/

/-- The empty store the backend starts from. -/
def S0 : Store := ⟨[], [], 1, 1⟩

/-- A registration request. -/
def UC1 : UserCreate := ⟨"alice@example.com", "Alice", 1000, "", "neutral"⟩

/-- The user row created from `UC1`. -/
def U1 : User := ⟨1, "alice@example.com", "Alice", 1000, "", "neutral"⟩

/-- The store after registering `UC1` on the empty store. -/
def S1r : Store := ⟨[U1], [], 2, 1⟩

/-- A transaction request for user 1. -/
def TC1 : TransactionCreate := ⟨1, 50, "food", "2024-01-01"⟩

/-- The store after recording `TC1` on `S1r`. -/
def S1t : Store := ⟨[U1], [⟨1, 1, 50, "food", "2024-01-01"⟩], 2, 2⟩

/-- A store with the spec's summary example: amounts [50, -20, 30] in
categories ["food", "food", "rent"]. -/
def S1 : Store :=
  ⟨[U1],
    [⟨1, 1, 50, "food", "2024-01-01"⟩, ⟨2, 1, -20, "food", "2024-01-02"⟩,
      ⟨3, 1, 30, "rent", "2024-01-03"⟩], 2, 4⟩

/-- A user with mood "neutral" for the mentor-advice example. -/
def U2 : User := ⟨1, "bob@example.com", "Bob", 1000, "", "neutral"⟩

/-- The same user with mood "stressed". -/
def U2s : User := ⟨1, "bob@example.com", "Bob", 1000, "", "stressed"⟩

/-- A store where user `U2` has spent 12.3 in total. -/
def S2 : Store := ⟨[U2], [⟨1, 1, 123/10, "misc", "2024-01-01"⟩], 2, 2⟩

/-- `S2` after updating the mood to "stressed". -/
def S2s : Store := ⟨[U2s], [⟨1, 1, 123/10, "misc", "2024-01-01"⟩], 2, 2⟩

/-! ### Helper lemmas -/

/-- The value looked up in the breakdown dict, 0 when the key is absent. -/
def lookupAmt (l : List (String × ℚ)) (c : String) : ℚ :=
  match l.find? (fun p => p.1 == c) with
  | none => 0
  | some p => p.2

theorem lookupAmt_eq_zero (l : List (String × ℚ)) (c : String)
    (h : l.any (fun p => p.1 == c) = false) : lookupAmt l c = 0 := by
  unfold lookupAmt
  rw [List.find?_eq_none.mpr]
  intro p hp
  have := List.any_eq_false.mp h p hp
  simpa using this

theorem lookupAmt_cons_of_pos (p : String × ℚ) (l : List (String × ℚ)) (c : String)
    (h : (p.1 == c) = true) : lookupAmt (p :: l) c = p.2 := by
  unfold lookupAmt
  rw [List.find?_cons]
  simp [h]

theorem lookupAmt_cons_of_neg (p : String × ℚ) (l : List (String × ℚ)) (c : String)
    (h : ¬(p.1 == c) = true) : lookupAmt (p :: l) c = lookupAmt l c := by
  unfold lookupAmt
  rw [List.find?_cons]
  simp [h]

theorem lookupAmt_map (acc : List (String × ℚ)) (c' c : String) (a : ℚ) :
    lookupAmt (acc.map (fun p => if p.1 == c' then (p.1, p.2 + a) else p)) c =
      (if acc.any (fun p => p.1 == c) = true ∧ c' = c then lookupAmt acc c + a
       else lookupAmt acc c) := by
  induction acc with
  | nil => simp [lookupAmt]
  | cons p rest ih =>
    have hg1 : ((if (p.1 == c') = true then (p.1, p.2 + a) else p) : String × ℚ).1 = p.1 := by
      by_cases h : (p.1 == c') = true <;> simp [h]
    rw [List.map_cons]
    by_cases hpc : (p.1 == c) = true
    · rw [lookupAmt_cons_of_pos _ _ _ (by rw [hg1]; exact hpc),
        lookupAmt_cons_of_pos _ _ _ hpc]
      by_cases hcc : c' = c
      · have hbeq : (p.1 == c') = true := by rw [hcc]; exact hpc
        simp [hbeq, hpc, hcc]
      · have h1 : p.1 = c := by simpa using hpc
        have hbeq : ¬(p.1 == c') = true := by
          simpa [h1] using fun h => hcc h.symm
        simp [hbeq, hcc]
    · rw [lookupAmt_cons_of_neg _ _ _ (by rw [hg1]; exact hpc),
        lookupAmt_cons_of_neg _ _ _ hpc]
      simp only [List.any_cons, show (p.1 == c) = false from by simpa using hpc,
        Bool.false_or]
      exact ih

theorem lookupAmt_append_single (acc : List (String × ℚ)) (c' c : String) (a : ℚ) :
    lookupAmt (acc ++ [(c', a)]) c =
      (if acc.any (fun p => p.1 == c) = true then lookupAmt acc c
       else if c' = c then a else 0) := by
  induction acc with
  | nil =>
    simp only [List.nil_append, List.any_nil]
    by_cases hcc : c' = c
    · rw [lookupAmt_cons_of_pos _ _ _ (by simp [hcc])]
      simp [hcc]
    · rw [lookupAmt_cons_of_neg _ _ _ (by simpa using hcc)]
      simp [hcc, lookupAmt]
  | cons p rest ih =>
    rw [List.cons_append]
    by_cases hpc : (p.1 == c) = true
    · rw [lookupAmt_cons_of_pos _ _ _ hpc, if_pos (by simp [List.any_cons, hpc]),
        lookupAmt_cons_of_pos _ _ _ hpc]
    · rw [lookupAmt_cons_of_neg _ _ _ hpc, lookupAmt_cons_of_neg _ _ _ hpc] at *
      simp only [List.any_cons, show (p.1 == c) = false from by simpa using hpc,
        Bool.false_or]
      exact ih

theorem lookupAmt_addCategory (acc : List (String × ℚ)) (c' c : String) (a : ℚ) :
    lookupAmt (addCategory acc c' a) c =
      lookupAmt acc c + (if c' = c then a else 0) := by
  unfold addCategory
  by_cases hany : acc.any (fun p => p.1 == c') = true
  · rw [if_pos hany, lookupAmt_map]
    by_cases hcc : c' = c
    · subst hcc
      rw [if_pos ⟨hany, rfl⟩, if_pos rfl]
    · simp [hcc]
  · rw [if_neg hany, lookupAmt_append_single]
    by_cases hcc : c' = c
    · subst hcc
      have h0 : acc.any (fun p => p.1 == c') = false := by
        simpa only [Bool.not_eq_true] using hany
      simp [h0, lookupAmt_eq_zero acc c' h0]
    · simp only [hcc, if_false, add_zero]
      by_cases h2 : acc.any (fun p => p.1 == c) = true
      · rw [if_pos h2]
      · rw [if_neg h2, lookupAmt_eq_zero acc c
          (by simpa only [Bool.not_eq_true] using h2)]

theorem lookupAmt_foldl (txs : List Transaction) (acc : List (String × ℚ)) (c : String) :
    lookupAmt (txs.foldl (fun a t => addCategory a t.category t.amount) acc) c =
      lookupAmt acc c +
        ((txs.filter (fun t => t.category == c)).map (fun t => t.amount)).sum := by
  induction txs generalizing acc with
  | nil => simp
  | cons t rest ih =>
    rw [List.foldl_cons, ih, lookupAmt_addCategory, List.filter_cons]
    by_cases h : t.category = c
    · rw [if_pos h, if_pos (by simpa using h)]
      simp only [List.map_cons, List.sum_cons]
      ring
    · rw [if_neg h, if_neg (by simpa using h)]
      ring

theorem lookupAmt_category_breakdown (txs : List Transaction) (c : String) :
    lookupAmt (category_breakdown txs) c =
      ((txs.filter (fun t => t.category == c)).map (fun t => t.amount)).sum := by
  unfold category_breakdown
  rw [lookupAmt_foldl]
  simp [lookupAmt]

theorem find?_user_split (l : List User) (uid : Nat) (u : User)
    (h : l.find? (fun v => v.id == uid) = some u) :
    ∃ pre post, l = pre ++ u :: post ∧ (∀ v ∈ pre, v.id ≠ uid) ∧ u.id = uid := by
  induction l with
  | nil => simp [List.find?] at h
  | cons v rest ih =>
    rw [List.find?_cons] at h
    by_cases hv : (v.id == uid) = true
    · simp only [hv] at h
      injection h with h
      subst h
      exact ⟨[], rest, rfl, by intro w hw; simp at hw, by simpa using hv⟩
    · simp only [show (v.id == uid) = false from by simpa only [Bool.not_eq_true] using hv]
        at h
      obtain ⟨pre, post, heq, hpre, hu⟩ := ih h
      refine ⟨v :: pre, post, by rw [heq, List.cons_append], ?_, hu⟩
      intro w hw
      rcases List.mem_cons.mp hw with hwv | hwp
      · subst hwv
        simpa using hv
      · exact hpre w hwp

theorem setMoodFirst_append (pre : List User) (u : User) (post : List User)
    (uid : Nat) (m : String) (hpre : ∀ v ∈ pre, v.id ≠ uid) (hu : u.id = uid) :
    setMoodFirst (pre ++ u :: post) uid m = pre ++ { u with mood := m } :: post := by
  induction pre with
  | nil =>
    simp only [List.nil_append, setMoodFirst]
    rw [if_pos (by simpa using hu)]
  | cons v rest ih =>
    have hv : ¬(v.id == uid) = true := by
      simpa using hpre v (by simp)
    simp only [List.cons_append, setMoodFirst, List.append_eq]
    rw [if_neg hv, ih (fun w hw => hpre w (by simp [hw]))]

theorem applyOp_users_append (s : Store) (op : Op)
    (h : ∀ uid2 m2, op ≠ Op.setMood uid2 m2) :
    ∃ rest, (applyOp s op).users = s.users ++ rest := by
  cases op with
  | register u =>
    cases hf : findUserByEmail s u.email
    · exact ⟨[⟨s.nextUserId, u.email, u.name, u.monthly_income,
        u.financial_goal, u.mood⟩], by simp [applyOp, create_user, stateOf, hf]⟩
    · exact ⟨[], by simp [applyOp, create_user, stateOf, hf]⟩
  | fetchUser uid =>
    refine ⟨[], ?_⟩
    cases hf : findUserById s uid <;> simp [applyOp, get_user, stateOf, hf]
  | recordTx tx =>
    refine ⟨[], ?_⟩
    cases hf : findUserById s tx.user_id <;>
      simp [applyOp, add_transaction, stateOf, hf]
  | listTx uid => exact ⟨[], by simp [applyOp, get_transactions, stateOf]⟩
  | summary uid =>
    refine ⟨[], ?_⟩
    cases hf : findUserById s uid <;> simp [applyOp, user_summary, stateOf, hf]
  | setMood uid m => exact absurd rfl (h uid m)
  | advice uid =>
    refine ⟨[], ?_⟩
    cases hf : findUserById s uid <;> simp [applyOp, mentor_advice, stateOf, hf]

theorem applyOp_transactions_append (s : Store) (op : Op) :
    ∃ rest, (applyOp s op).transactions = s.transactions ++ rest := by
  cases op with
  | register u =>
    refine ⟨[], ?_⟩
    cases hf : findUserByEmail s u.email <;>
      simp [applyOp, create_user, stateOf, hf]
  | fetchUser uid =>
    refine ⟨[], ?_⟩
    cases hf : findUserById s uid <;> simp [applyOp, get_user, stateOf, hf]
  | recordTx tx =>
    cases hf : findUserById s tx.user_id
    · exact ⟨[], by simp [applyOp, add_transaction, stateOf, hf]⟩
    · exact ⟨[⟨s.nextTxId, tx.user_id, tx.amount, tx.category, tx.date⟩],
        by simp [applyOp, add_transaction, stateOf, hf]⟩
  | listTx uid => exact ⟨[], by simp [applyOp, get_transactions, stateOf]⟩
  | summary uid =>
    refine ⟨[], ?_⟩
    cases hf : findUserById s uid <;> simp [applyOp, user_summary, stateOf, hf]
  | setMood uid m =>
    refine ⟨[], ?_⟩
    cases hf : findUserById s uid <;> simp [applyOp, update_mood, stateOf, hf]
  | advice uid =>
    refine ⟨[], ?_⟩
    cases hf : findUserById s uid <;> simp [applyOp, mentor_advice, stateOf, hf]

theorem mem_setMoodFirst (l : List User) (uid : Nat) (m : String) (v : User)
    (hv : v ∈ setMoodFirst l uid m) : ∃ w ∈ l, v.id = w.id := by
  induction l with
  | nil => simp [setMoodFirst] at hv
  | cons u rest ih =>
    simp only [setMoodFirst] at hv
    by_cases hu : (u.id == uid) = true
    · rw [if_pos hu] at hv
      rcases List.mem_cons.mp hv with h1 | h2
      · exact ⟨u, by simp, by rw [h1]⟩
      · exact ⟨v, by simp [h2], rfl⟩
    · rw [if_neg hu] at hv
      rcases List.mem_cons.mp hv with h1 | h2
      · exact ⟨u, by simp, by rw [h1]⟩
      · obtain ⟨w, hw, hid⟩ := ih h2
        exact ⟨w, by simp [hw], hid⟩

theorem mem_setMoodFirst_rev (l : List User) (uid : Nat) (m : String) (w : User)
    (hw : w ∈ l) : ∃ v ∈ setMoodFirst l uid m, v.id = w.id := by
  induction l with
  | nil => simp at hw
  | cons u rest ih =>
    simp only [setMoodFirst]
    by_cases hu : (u.id == uid) = true
    · rw [if_pos hu]
      rcases List.mem_cons.mp hw with h1 | h2
      · exact ⟨{ u with mood := m }, by simp, by rw [h1]⟩
      · exact ⟨w, by simp [h2], rfl⟩
    · rw [if_neg hu]
      rcases List.mem_cons.mp hw with h1 | h2
      · exact ⟨u, by simp, by rw [h1]⟩
      · obtain ⟨v, hv, hid⟩ := ih h2
        exact ⟨v, by simp [hv], hid⟩

/-- The empty store the backend creates its database from is well-formed. -/
theorem WF_S0 : WF S0 := by decide

/-- Well-formedness is preserved by every request, so the `WF` hypotheses
below hold in every reachable store. -/
theorem WF_applyOp (s : Store) (op : Op) (h : WF s) : WF (applyOp s op) := by
  obtain ⟨h1, h2⟩ := h
  cases op with
  | register u =>
    cases hf : findUserByEmail s u.email with
    | some du => simpa [applyOp, create_user, stateOf, hf] using ⟨h1, h2⟩
    | none =>
      simp only [applyOp, create_user, stateOf, hf]
      refine ⟨?_, ?_⟩
      · intro v hv
        rcases List.mem_append.mp hv with hm | hm
        · exact Nat.lt_succ_of_lt (h1 v hm)
        · simp at hm
          subst hm
          exact Nat.lt_succ_self _
      · intro t ht
        obtain ⟨hlt, w, hw, hid⟩ := h2 t ht
        exact ⟨hlt, w, List.mem_append_left _ hw, hid⟩
  | fetchUser uid =>
    cases hf : findUserById s uid with
    | some du => simpa [applyOp, get_user, stateOf, hf] using ⟨h1, h2⟩
    | none => simpa [applyOp, get_user, stateOf, hf] using ⟨h1, h2⟩
  | recordTx tx =>
    cases hf : findUserById s tx.user_id with
    | none => simpa [applyOp, add_transaction, stateOf, hf] using ⟨h1, h2⟩
    | some du =>
      simp only [applyOp, add_transaction, stateOf, hf]
      refine ⟨h1, ?_⟩
      intro t ht
      rcases List.mem_append.mp ht with hm | hm
      · obtain ⟨hlt, w, hw, hid⟩ := h2 t hm
        exact ⟨Nat.lt_succ_of_lt hlt, w, hw, hid⟩
      · simp at hm
        subst hm
        exact ⟨Nat.lt_succ_self _, du, List.mem_of_find?_eq_some hf,
          by simpa using List.find?_some hf⟩
  | listTx uid => simpa [applyOp, get_transactions, stateOf] using ⟨h1, h2⟩
  | summary uid =>
    cases hf : findUserById s uid with
    | some du => simpa [applyOp, user_summary, stateOf, hf] using ⟨h1, h2⟩
    | none => simpa [applyOp, user_summary, stateOf, hf] using ⟨h1, h2⟩
  | setMood uid m =>
    cases hf : findUserById s uid with
    | none => simpa [applyOp, update_mood, stateOf, hf] using ⟨h1, h2⟩
    | some du =>
      simp only [applyOp, update_mood, stateOf, hf]
      refine ⟨?_, ?_⟩
      · intro v hv
        obtain ⟨w, hw, hid⟩ := mem_setMoodFirst s.users uid m v hv
        exact hid ▸ h1 w hw
      · intro t ht
        obtain ⟨hlt, w, hw, hid⟩ := h2 t ht
        obtain ⟨v, hv, hvid⟩ := mem_setMoodFirst_rev s.users uid m w hw
        exact ⟨hlt, v, hv, hvid.trans hid⟩
  | advice uid =>
    cases hf : findUserById s uid with
    | some du => simpa [applyOp, mentor_advice, stateOf, hf] using ⟨h1, h2⟩
    | none => simpa [applyOp, mentor_advice, stateOf, hf] using ⟨h1, h2⟩

/-! ### Claim theorems -/

/-- C6: Fetch User returns the User representation when a User with the given
identifier exists, and fails with the 404 "User not found" error for every
identifier with no registered User. -/
theorem get_user_spec (s : Store) (uid : Nat) :
    ((∃ u ∈ s.users, u.id = uid) →
      ∃ u, get_user s uid = .ok (u, s) ∧ u ∈ s.users ∧ u.id = uid) ∧
    ((∀ u ∈ s.users, u.id ≠ uid) →
      get_user s uid = .error ⟨404, "User not found"⟩) := by
  unfold get_user findUserById
  cases hf : s.users.find? (fun u => u.id == uid) with
  | none =>
    rw [List.find?_eq_none] at hf
    constructor
    · rintro ⟨u, hu, hid⟩
      exact absurd (by simpa using hid) (by simpa using hf u hu)
    · intro _
      rfl
  | some u =>
    have hm := List.mem_of_find?_eq_some hf
    have hp : u.id = uid := by simpa using List.find?_some hf
    constructor
    · intro _
      exact ⟨u, rfl, hm, hp⟩
    · intro hall
      exact absurd hp (hall u hm)

/-- C7: Fetch User and List Transactions are read-only and idempotent: a
successful call returns the store unchanged, repeating the call gives an
identical result, and the store after serving either request equals the
store before it. -/
theorem reads_idempotent (s : Store) (uid : Nat) :
    (∀ u s2, get_user s uid = .ok (u, s2) →
      s2 = s ∧ get_user s2 uid = get_user s uid) ∧
    (∀ l s2, get_transactions s uid = .ok (l, s2) →
      s2 = s ∧ get_transactions s2 uid = get_transactions s uid) ∧
    applyOp s (Op.fetchUser uid) = s ∧ applyOp s (Op.listTx uid) = s := by
  refine ⟨?_, ?_, ?_, ?_⟩
  · intro u s2 h
    unfold get_user at h
    cases hf : findUserById s uid <;> rw [hf] at h
    · exact absurd h (by simp)
    · simp only [Except.ok.injEq, Prod.mk.injEq] at h
      obtain ⟨-, h2⟩ := h
      subst h2
      exact ⟨rfl, rfl⟩
  · intro l s2 h
    unfold get_transactions at h
    simp only [Except.ok.injEq, Prod.mk.injEq] at h
    obtain ⟨-, h2⟩ := h
    subst h2
    exact ⟨rfl, rfl⟩
  · cases hf : findUserById s uid <;> simp [applyOp, get_user, stateOf, hf]
  · simp [applyOp, get_transactions, stateOf]

/-- C5: List Transactions returns the ordered-by-creation sequence of all
Transactions whose user_id matches, without checking that the user exists:
in a well-formed store, an identifier with no registered User yields the
empty sequence, not an error. -/
theorem get_transactions_spec (s : Store) (uid : Nat) (hwf : WF s) :
    get_transactions s uid =
      .ok (s.transactions.filter (fun t => t.user_id == uid), s) ∧
    ((∀ u ∈ s.users, u.id ≠ uid) → get_transactions s uid = .ok ([], s)) := by
  constructor
  · rfl
  · intro hno
    have h0 : txsFor s uid = [] := by
      unfold txsFor
      rw [List.filter_eq_nil_iff]
      intro t ht
      obtain ⟨-, u, hu, hid⟩ := hwf.2 t ht
      intro hbeq
      exact hno u hu (hid.trans (by simpa using hbeq))
    simp [get_transactions, h0]

/-- C3: Register User fails with the 400 "Email already registered" conflict
error if and only if a User with the same email already exists; otherwise it
succeeds with a new User carrying the request's fields and an identifier
distinct from every existing User's, appended to the user table. -/
theorem create_user_spec (s : Store) (user : UserCreate) (hwf : WF s) :
    ((∃ du ∈ s.users, du.email = user.email) →
      create_user s user = .error ⟨400, "Email already registered"⟩) ∧
    ((∀ du ∈ s.users, du.email ≠ user.email) →
      ∃ nu s2, create_user s user = .ok (nu, s2) ∧
        nu.email = user.email ∧ nu.name = user.name ∧
        nu.monthly_income = user.monthly_income ∧
        nu.financial_goal = user.financial_goal ∧ nu.mood = user.mood ∧
        (∀ du ∈ s.users, du.id ≠ nu.id) ∧
        s2.users = s.users ++ [nu] ∧ s2.transactions = s.transactions) := by
  unfold create_user findUserByEmail
  cases hf : s.users.find? (fun u => u.email == user.email) with
  | some du =>
    constructor
    · intro _
      rfl
    · intro hall
      exact absurd (by simpa using List.find?_some hf)
        (hall du (List.mem_of_find?_eq_some hf))
  | none =>
    rw [List.find?_eq_none] at hf
    constructor
    · rintro ⟨du, hdu, he⟩
      exact absurd he (by simpa using hf du hdu)
    · intro _
      refine ⟨_, _, rfl, rfl, rfl, rfl, rfl, rfl, ?_, rfl, rfl⟩
      intro du hdu
      exact Nat.ne_of_lt (hwf.1 du hdu)

/-- C4: Record Transaction against a user_id with no existing User fails with
the 404 "User not found" error and leaves the store unchanged; when the User
exists it succeeds with a new Transaction carrying the request's fields and
an identifier distinct from every existing Transaction's, appended to the
transaction table. -/
theorem add_transaction_spec (s : Store) (tx : TransactionCreate) (hwf : WF s) :
    ((∀ u ∈ s.users, u.id ≠ tx.user_id) →
      add_transaction s tx = .error ⟨404, "User not found"⟩ ∧
      stateOf s (add_transaction s tx) = s) ∧
    ((∃ u ∈ s.users, u.id = tx.user_id) →
      ∃ nt s2, add_transaction s tx = .ok (nt, s2) ∧
        nt.user_id = tx.user_id ∧ nt.amount = tx.amount ∧
        nt.category = tx.category ∧ nt.date = tx.date ∧
        (∀ t ∈ s.transactions, t.id ≠ nt.id) ∧
        s2.transactions = s.transactions ++ [nt] ∧ s2.users = s.users) := by
  unfold add_transaction findUserById
  cases hf : s.users.find? (fun u => u.id == tx.user_id) with
  | none =>
    rw [List.find?_eq_none] at hf
    constructor
    · intro _
      exact ⟨rfl, rfl⟩
    · rintro ⟨u, hu, hid⟩
      exact absurd hid (by simpa using hf u hu)
  | some du =>
    constructor
    · intro hall
      exact absurd (by simpa using List.find?_some hf)
        (hall du (List.mem_of_find?_eq_some hf))
    · intro _
      refine ⟨_, _, rfl, rfl, rfl, rfl, rfl, ?_, rfl, rfl⟩
      intro t ht
      exact Nat.ne_of_lt (hwf.2 t ht).1

/-- C10: after a successful Record Transaction, List Transactions for that
user returns its previous result with exactly the new Transaction appended
at the end, and the returned Transaction carries the request's user_id,
amount, category and date. -/
theorem add_then_list (s : Store) (tx : TransactionCreate) (nt : Transaction)
    (s2 : Store) (h : add_transaction s tx = .ok (nt, s2)) :
    nt.user_id = tx.user_id ∧ nt.amount = tx.amount ∧
    nt.category = tx.category ∧ nt.date = tx.date ∧
    get_transactions s2 tx.user_id = .ok (txsFor s tx.user_id ++ [nt], s2) := by
  unfold add_transaction at h
  cases hf : findUserById s tx.user_id <;> rw [hf] at h
  · exact absurd h (by simp)
  · simp only [Except.ok.injEq, Prod.mk.injEq] at h
    obtain ⟨h1, h2⟩ := h
    subst h1
    subst h2
    refine ⟨rfl, rfl, rfl, rfl, ?_⟩
    simp [get_transactions, txsFor, List.filter_append]

/-- C1: for every existing user, User Summary returns total_spent equal to
the arithmetic sum of the amounts of all of the user's transactions (no
sign filtering) and category_breakdown built by accumulating per
transaction in list order, in which every category is mapped to the sum of
the amounts in that category. -/
theorem user_summary_spec (s : Store) (uid : Nat) (u : User)
    (h : findUserById s uid = some u) :
    user_summary s uid = .ok (⟨u.name, u.financial_goal,
        ((txsFor s uid).map (fun t => t.amount)).sum,
        category_breakdown (txsFor s uid)⟩, s) ∧
    (∀ c, lookupAmt (category_breakdown (txsFor s uid)) c =
        (((txsFor s uid).filter (fun t => t.category == c)).map
          (fun t => t.amount)).sum) := by
  constructor
  · unfold user_summary
    rw [h]
  · intro c
    exact lookupAmt_category_breakdown (txsFor s uid) c

/-- C2: for every existing user, Mentor Advice returns the summary string
"<name> has spent <total> this month." with the total of all the user's
transaction amounts formatted to two decimal places, and an advice string
equal to the base encouragement text with the stress sentence appended if
and only if the user's mood equals exactly "stressed". -/
theorem mentor_advice_spec (s : Store) (uid : Nat) (u : User)
    (h : findUserById s uid = some u) :
    mentor_advice s uid = .ok ((u.name ++ " has spent " ++
        fmt2 (((txsFor s uid).map (fun t => t.amount)).sum) ++ " this month.",
      if u.mood = "stressed" then baseAdvice ++ stressAdvice
      else baseAdvice), s) := by
  unfold mentor_advice
  rw [h]
  by_cases hm : u.mood = "stressed" <;> simp [hm]

/-- C8: existing User records are mutated only by Update Mood and never
deleted: every non-mood operation leaves the user table a supersequence of
what it was (every existing User row survives unchanged), while Update Mood
on an existing user echoes {user_id, mood} and rewrites the user table with
exactly the targeted User's mood field overwritten, all its other fields
and all other Users untouched, the transaction table and counters
unchanged. -/
theorem update_mood_spec (s : Store) (op : Op) (uid : Nat) (m : String)
    (u : User) (h : findUserById s uid = some u) :
    (∃ pre post, s.users = pre ++ u :: post ∧ (∀ v ∈ pre, v.id ≠ uid) ∧
      u.id = uid ∧
      update_mood s uid m = .ok ((uid, m),
        { s with users := pre ++ { u with mood := m } :: post })) ∧
    ((∀ uid2 m2, op ≠ Op.setMood uid2 m2) →
      ∃ rest, (applyOp s op).users = s.users ++ rest) := by
  constructor
  · obtain ⟨pre, post, heq, hpre, hu⟩ := find?_user_split s.users uid u h
    refine ⟨pre, post, heq, hpre, hu, ?_⟩
    unfold update_mood
    rw [h]
    rw [show setMoodFirst s.users uid m = pre ++ { u with mood := m } :: post
      from by rw [heq]; exact setMoodFirst_append pre u post uid m hpre hu]
  · exact applyOp_users_append s op

/-- C9: Transactions are immutable after creation: over any sequence of
requests the transaction table only ever grows at the end, so every
Transaction row present before is present and unchanged afterwards. -/
theorem transactions_immutable (s : Store) (ops : List Op) :
    (∃ rest, (applyAll s ops).transactions = s.transactions ++ rest) ∧
    (∀ t ∈ s.transactions, t ∈ (applyAll s ops).transactions) := by
  have main : ∃ rest, (applyAll s ops).transactions = s.transactions ++ rest := by
    induction ops generalizing s with
    | nil => exact ⟨[], by simp [applyAll]⟩
    | cons op rest ih =>
      obtain ⟨r1, h1⟩ := applyOp_transactions_append s op
      obtain ⟨r2, h2⟩ := ih (applyOp s op)
      refine ⟨r1 ++ r2, ?_⟩
      have : applyAll s (op :: rest) = applyAll (applyOp s op) rest := by
        simp [applyAll]
      rw [this, h2, h1, List.append_assoc]
  obtain ⟨rest, hrest⟩ := main
  refine ⟨⟨rest, hrest⟩, ?_⟩
  intro t ht
  rw [hrest]
  exact List.mem_append_left rest ht

/-! ### Witnesses -/

/-- Witness for C6 on a concrete store: user 1 exists and is fetched, user 99
does not and yields 404. -/
theorem get_user_spec_witness :
    (∃ u ∈ S1.users, u.id = 1) ∧
    (∃ u, get_user S1 1 = .ok (u, S1) ∧ u ∈ S1.users ∧ u.id = 1) ∧
    (∀ u ∈ S1.users, u.id ≠ 99) ∧
    get_user S1 99 = .error ⟨404, "User not found"⟩ := by
  have hex : ∃ u ∈ S1.users, u.id = 1 := ⟨U1, by simp [S1], rfl⟩
  exact ⟨hex, (get_user_spec S1 1).1 hex, by decide,
    (get_user_spec S1 99).2 (by decide)⟩

/-- Witness for C7 on a concrete store. -/
theorem reads_idempotent_witness :
    get_user S1 1 = .ok (U1, S1) ∧
    (S1 = S1 ∧ get_user S1 1 = get_user S1 1) ∧
    applyOp S1 (Op.fetchUser 1) = S1 ∧ applyOp S1 (Op.listTx 1) = S1 := by
  refine ⟨rfl, (reads_idempotent S1 1).1 U1 S1 rfl, ?_, ?_⟩
  · exact (reads_idempotent S1 1).2.2.1
  · exact (reads_idempotent S1 1).2.2.2

/-- Witness for C5 on a concrete store: listing transactions of the
unregistered user 99 returns the empty sequence, not an error. -/
theorem get_transactions_spec_witness :
    WF S1 ∧ (∀ u ∈ S1.users, u.id ≠ 99) ∧
    get_transactions S1 99 = .ok ([], S1) := by
  exact ⟨by decide, by decide, (get_transactions_spec S1 99 (by decide)).2 (by decide)⟩

/-- Witness for C3: registering alice on the empty store succeeds with a
fresh user; registering the same email again fails with the conflict
error. -/
theorem create_user_spec_witness :
    WF S0 ∧ WF S1r ∧
    create_user S0 UC1 = .ok (U1, S1r) ∧
    create_user S1r UC1 = .error ⟨400, "Email already registered"⟩ := by
  refine ⟨by decide, by decide, rfl, ?_⟩
  exact (create_user_spec S1r UC1 (by decide)).1 ⟨U1, by simp [S1r], rfl⟩

/-- Witness for C4: recording a transaction for the unregistered user 99
fails with 404 and leaves the store unchanged; recording for user 1
succeeds. -/
theorem add_transaction_spec_witness :
    WF S1r ∧ (∀ u ∈ S1r.users, u.id ≠ 99) ∧
    add_transaction S1r ⟨99, 50, "food", "2024-01-01"⟩ =
      .error ⟨404, "User not found"⟩ ∧
    stateOf S1r (add_transaction S1r ⟨99, 50, "food", "2024-01-01"⟩) = S1r ∧
    add_transaction S1r TC1 = .ok (⟨1, 1, 50, "food", "2024-01-01"⟩, S1t) := by
  have h := (add_transaction_spec S1r ⟨99, 50, "food", "2024-01-01"⟩
    (by decide)).1 (by decide)
  exact ⟨by decide, by decide, h.1, h.2, rfl⟩

/-- Witness for C1: the spec's summary example — amounts [50, -20, 30] in
categories ["food", "food", "rent"] give total_spent 60 and breakdown
food 30, rent 30. -/
theorem user_summary_spec_witness :
    findUserById S1 1 = some U1 ∧
    user_summary S1 1 =
      .ok (⟨"Alice", "", 60, [("food", 30), ("rent", 30)]⟩, S1) := by
  refine ⟨rfl, ?_⟩
  have h := (user_summary_spec S1 1 U1 rfl).1
  rw [h]
  norm_num [txsFor, S1, U1, category_breakdown, addCategory, List.filter,
    List.foldl]
  decide

/-- Witness for C2: total 12.3 formats as "12.30"; mood "neutral" yields the
base advice only, mood "stressed" appends the stress sentence. -/
theorem mentor_advice_spec_witness :
    findUserById S2 1 = some U2 ∧ findUserById S2s 1 = some U2s ∧
    mentor_advice S2 1 =
      .ok (("Bob has spent 12.30 this month.", baseAdvice), S2) ∧
    mentor_advice S2s 1 =
      .ok (("Bob has spent 12.30 this month.", baseAdvice ++ stressAdvice),
        S2s) := by
  refine ⟨rfl, rfl, ?_, ?_⟩
  · have h := mentor_advice_spec S2 1 U2 rfl
    rw [h]
    norm_num [U2, txsFor, S2, fmt2, rhe, pad2, List.filter]
    decide
  · have h := mentor_advice_spec S2s 1 U2s rfl
    rw [h]
    norm_num [U2s, txsFor, S2s, fmt2, rhe, pad2, List.filter]
    decide

/-- Witness for C8: updating the mood of user 1 in a one-user store
overwrites exactly that user's mood field and echoes the inputs; a
non-mood request leaves the user table intact. -/
theorem update_mood_spec_witness :
    findUserById S2 1 = some U2 ∧
    update_mood S2 1 "stressed" = .ok ((1, "stressed"), S2s) ∧
    (∃ pre post, S2.users = pre ++ U2 :: post ∧ (∀ v ∈ pre, v.id ≠ 1) ∧
      U2.id = 1 ∧
      update_mood S2 1 "stressed" = .ok ((1, "stressed"),
        { S2 with users := pre ++ { U2 with mood := "stressed" } :: post })) ∧
    (∃ rest, (applyOp S2 (Op.listTx 1)).users = S2.users ++ rest) := by
  refine ⟨rfl, rfl, (update_mood_spec S2 (Op.listTx 1) 1 "stressed" U2 rfl).1,
    (update_mood_spec S2 (Op.listTx 1) 1 "stressed" U2 rfl).2 ?_⟩
  intro uid2 m2 hcon
  exact Op.noConfusion hcon

/-- Witness for C9 on a concrete store and request sequence. -/
theorem transactions_immutable_witness :
    (∃ rest,
      (applyAll S1 [Op.setMood 1 "stressed",
        Op.recordTx ⟨1, 5, "misc", "2024-02-01"⟩]).transactions =
        S1.transactions ++ rest) ∧
    (∀ t ∈ S1.transactions,
      t ∈ (applyAll S1 [Op.setMood 1 "stressed",
        Op.recordTx ⟨1, 5, "misc", "2024-02-01"⟩]).transactions) :=
  transactions_immutable S1
    [Op.setMood 1 "stressed", Op.recordTx ⟨1, 5, "misc", "2024-02-01"⟩]

/-- Witness for C10: recording TC1 on the fresh one-user store makes List
Transactions return the previous (empty) sequence with the new row
appended. -/
theorem add_then_list_witness :
    add_transaction S1r TC1 = .ok (⟨1, 1, 50, "food", "2024-01-01"⟩, S1t) ∧
    (⟨1, 1, 50, "food", "2024-01-01"⟩ : Transaction).user_id = TC1.user_id ∧
    get_transactions S1t TC1.user_id =
      .ok (txsFor S1r TC1.user_id ++ [⟨1, 1, 50, "food", "2024-01-01"⟩],
        S1t) := by
  have h := add_then_list S1r TC1 ⟨1, 1, 50, "food", "2024-01-01"⟩ S1t rfl
  exact ⟨rfl, h.1, h.2.2.2.2⟩

end FinMentor
